import Mathlib

/-!
# Verification of the Fluxo interpreter (`src/shared/fluxo-interpreter.ts`)

A shallow embedding of the `FluxoInterpreter` class.  JavaScript strings are
modelled as `List Char`; the mutable interpreter context (variable map,
export table, transcript, window registry) is threaded explicitly; the four
`throw new Error(...)` sites are modelled with `Except String`.  The
JavaScript regular expressions used by the source are embedded as
specialised matchers; every input they are applied to is a single source
line (the text has been split on newline characters beforehand), and each
matcher implements the leftmost-match backtracking behaviour of the
corresponding regex on such inputs.
-/

set_option autoImplicit false

namespace Fluxo

/-- JavaScript strings are modelled as lists of characters. -/
abbrev Str := List Char

/-- The single-quote character (U+0027). -/
def squote : Char := Char.ofNat 39

/-- The opening-brace character (U+007B). -/
def lbrace : Char := Char.ofNat 123

/-- The closing-brace character (U+007D). -/
def rbrace : Char := Char.ofNat 125

/-- The character class of the JavaScript `\s` regex escape (ASCII part) and
of `String.prototype.trim`. -/
def isWs (c : Char) : Bool :=
  c == ' ' || c == '\t' || c == '\n' || c == '\r' || c == '\x0b' || c == '\x0c'

/-- The character class of the JavaScript `\w` regex escape. -/
def isWordChar (c : Char) : Bool :=
  c.isAlphanum || c == '_'

/-- The character class of the regex `/['"]/`. -/
def isQuoteChar (c : Char) : Bool :=
  c == '"' || c == squote

/-- Models `s.trim()`. -/
def jsTrim (l : Str) : Str :=
  ((l.dropWhile isWs).reverse.dropWhile isWs).reverse

/-- Models `s.startsWith(p)`. -/
def jsStartsWith (l p : Str) : Bool :=
  p.isPrefixOf l

/-- Models `s.includes(sub)`: `sub` occurs as a contiguous segment of `l`. -/
def jsIncludes : Str → Str → Bool
  | [], sub => sub.isEmpty
  | l@(_ :: t), sub => sub.isPrefixOf l || jsIncludes t sub

/-- Models `s.replace(/['"]/g, '')`: every quote character is removed, anywhere in
the string. -/
def stripQuotes (l : Str) : Str :=
  l.filter (fun c => !isQuoteChar c)

/-- Models `s.replace(pat, repl)` with a plain-string pattern: only the first
occurrence is replaced (`pat` is nonempty at every use site). -/
def jsReplaceFirst (pat repl : Str) : Str → Str
  | [] => []
  | c :: rest =>
    if pat.isPrefixOf (c :: rest) then repl ++ (c :: rest).drop pat.length
    else c :: jsReplaceFirst pat repl rest

/-- Models `s.split(sep)` for a single-character separator; like JavaScript it
produces `n+1` (possibly empty) pieces for `n` separators. -/
def splitChar (sep : Char) (l : Str) : List Str :=
  match l with
  | [] => [[]]
  | c :: rest =>
    match splitChar sep rest with
    | [] => [[]]
    | h :: t => if c == sep then [] :: h :: t else (c :: h) :: t

/-- Models `parts.join(sep)`. -/
def joinSep (sep : Str) : List Str → Str
  | [] => []
  | [x] => x
  | x :: y :: rest => x ++ sep ++ joinSep sep (y :: rest)

/-- Runtime values of the interpreter: the JavaScript values that can flow
through `evaluateExpression`, the variable map, window `data` stores and the
transcript renderers. A window capability object (the result of
`createWindowObject`) is identified by the index of the bound record in the
registry together with the `id` string captured at creation time; its
`database` and `libary`/`library` sub-objects and its four method closures
(`info`, `find`, `write`, `read`) are first-class values of their own, since
`evaluateColonMethodCall` and `resolveVariablePath` access them as ordinary
properties. -/
inductive Value where
  | vStr (s : Str)
  | vNum (n : Int)
  | vBool (b : Bool)
  | vNull
  | vUndefined
  | vWindow (idx : Nat) (id : Str)
  | vWindowDb (idx : Nat)
  | vWindowLib (idx : Nat)
  | vInfoFn (idx : Nat)
  | vFindFn (idx : Nat)
  | vWriteFn (idx : Nat)
  | vReadFn (idx : Nat)
  | vObj (fields : List (Str × Value))
  | vArr (elems : List Value)
  deriving Repr

open Value

/-- JavaScript truthiness for the embedded values (objects and arrays are
always truthy; `""`, `0`, `false`, `null` and `undefined` are falsy). -/
def truthy : Value → Bool
  | vStr s => !s.isEmpty
  | vNum n => n != 0
  | vBool b => b
  | vNull => false
  | vUndefined => false
  | _ => true

/-- The JavaScript `a || b` operator on embedded values. -/
def jsOr (a b : Value) : Value :=
  if truthy a then a else b

/-- A window record (`WindowState` from `shared/schema.ts`) restricted to the
fields the interpreter reads or writes: `id`, `appType`, `title`,
`size.width`/`size.height` (flattened), the optional `data` payload and the
lazily created `library` map.  The remaining fields (position, z-index,
minimised/maximised flags) are never touched by the interpreter. `data` and
`library` are modelled as association lists of properties, with `none`
standing for the JavaScript `undefined` of an absent field. -/
structure WindowState where
  id : Str
  appType : Str
  title : Str
  width : Int
  height : Int
  data : Option (List (Str × Value)) := none
  library : Option (List (Str × Value)) := none
  deriving Repr

/-- An exported function as stored by `parseExportFunction`. -/
structure FluxoFunction where
  params : List Str
  body : Str
  deriving Repr

/-- Models `obj[k]` on an association-list object: `some` the stored value, `none`
for the JavaScript `undefined` of an absent property. -/
def assocGet (m : List (Str × Value)) (k : Str) : Option Value :=
  (m.find? (fun p => p.1 == k)).map (·.2)

/-- Models `obj[k] = v` (also the behaviour of `Map.prototype.set`): overwrite the
binding in place if the key is present, otherwise append it. -/
def assocSet (m : List (Str × Value)) (k : Str) (v : Value) : List (Str × Value) :=
  match m with
  | [] => [(k, v)]
  | (k', v') :: rest => if k' == k then (k, v) :: rest else (k', v') :: assocSet rest k v

/-- Models `map.has(k)` for the association lists standing for JavaScript `Map`s. -/
def assocHas (m : List (Str × Value)) (k : Str) : Bool :=
  m.any (fun p => p.1 == k)

/-- Lookup in the exported-function table. -/
def exportsGet (m : List (Str × FluxoFunction)) (k : Str) : Option FluxoFunction :=
  (m.find? (fun p => p.1 == k)).map (·.2)

/-- Models `Map.prototype.set` on the exported-function table. -/
def exportsSet (m : List (Str × FluxoFunction)) (k : Str) (v : FluxoFunction) :
    List (Str × FluxoFunction) :=
  match m with
  | [] => [(k, v)]
  | (k', v') :: rest => if k' == k then (k, v) :: rest else (k', v') :: exportsSet rest k v

/-- Models `map.has(k)` on the exported-function table. -/
def exportsHas (m : List (Str × FluxoFunction)) (k : Str) : Bool :=
  m.any (fun p => p.1 == k)

/-- The `FluxoContext` of the source, together with the `windows` list (the
class stores the same array twice, as `this.windows` and
`this.context.windows`; both alias the one registry, so one field suffices).
The field `vars` models the source's `variables` map (that identifier is a
reserved word here). -/
structure FluxoContext where
  windows : List WindowState
  vars : List (Str × Value)
  exports : List (Str × FluxoFunction)
  output : List Str
  deriving Repr

/-- Shorthand for embedding Lean string literals as `Str`. -/
def str (s : String) : Str :=
  s.toList

/-- Models `s.toLowerCase()` (ASCII part). -/
def jsToLower (l : Str) : Str :=
  l.map Char.toLower

/-- Models `trimmed.startsWith('"') || trimmed.startsWith("'")`. -/
def startsWithQuote (l : Str) : Bool :=
  match l with
  | [] => false
  | c :: _ => c == '"' || c == squote

/-- Models `typeof v === 'object'` (`null` included, as in JavaScript). -/
def typeofObject : Value → Bool
  | vNull => true
  | vWindow _ _ => true
  | vWindowDb _ => true
  | vWindowLib _ => true
  | vObj _ => true
  | vArr _ => true
  | _ => false

/-- Models `typeof v === 'function'`. -/
def isFunctionValue : Value → Bool
  | vInfoFn _ => true
  | vFindFn _ => true
  | vWriteFn _ => true
  | vReadFn _ => true
  | _ => false

/-- JavaScript property access `v[k]` for the embedded values.  Built-in
members of primitives (for example `String.prototype` methods) and of
functions are outside the embedding: the scripts under study never touch
them, so they are modelled as absent (`vUndefined`). -/
def getProp (v : Value) (k : Str) : Value :=
  match v with
  | vWindow idx id =>
    if k == str "id" then vStr id
    else if k == str "info" then vInfoFn idx
    else if k == str "libary" || k == str "library" then vWindowLib idx
    else if k == str "database" then vWindowDb idx
    else vUndefined
  | vWindowDb idx =>
    if k == str "write" then vWriteFn idx
    else if k == str "read" then vReadFn idx
    else vUndefined
  | vWindowLib idx =>
    if k == str "find" then vFindFn idx
    else vUndefined
  | vObj fields => (assocGet fields k).getD vUndefined
  | vArr elems => if k == str "length" then vNum elems.length else vUndefined
  | _ => vUndefined

/-! ## The embedded regular expressions

Each `try...Here` function implements one of the source's regex literals
anchored at the start of its input; the `regexScan` wrapper restores the
JavaScript leftmost-match search by trying every start position in order.
All inputs are single source lines (no newline characters), so `.` matches
every character that occurs.  The character classes `\s` and `\w` are
disjoint and disjoint from the literal characters that follow them in these
patterns, which makes the greedy backtracking of the JavaScript engine
collapse to the deterministic maximal-munch scans used here; the only
genuine backtracking point, `\s*(.+)` at the end of the `local` pattern, is
modelled explicitly in `tryLocalHere`. -/

/-- Match a literal string prefix and return the remainder. -/
def dropLit (pat l : Str) : Option Str :=
  if pat.isPrefixOf l then some (l.drop pat.length) else none

/-- Try `tryHere` at every start position, leftmost first. -/
def regexScan {α : Type} (tryHere : Str → Option α) : Str → Option α
  | [] => tryHere []
  | l@(_ :: t) =>
    match tryHere l with
    | some r => some r
    | none => regexScan tryHere t

/-- Models `/local\s+(\w+)\s*=\s*(.+)/` anchored at the start: returns the
variable name and the expression text. -/
def tryLocalHere (l : Str) : Option (Str × Str) :=
  match dropLit (str "local") l with
  | none => none
  | some r1 =>
    if (r1.takeWhile isWs).isEmpty then none
    else
      let r2 := r1.dropWhile isWs
      let name := r2.takeWhile isWordChar
      if name.isEmpty then none
      else
        match (r2.dropWhile isWordChar).dropWhile isWs with
        | '=' :: r5 =>
          let expr := r5.dropWhile isWs
          if !expr.isEmpty then some (name, expr)
          else
            -- `\s*` gives one whitespace character back so that `(.+)` can
            -- match when nothing but whitespace follows the `=`
            match r5.getLast? with
            | some c => some (name, [c])
            | none => none
        | _ => none

/-- Models `line.match(/local\s+(\w+)\s*=\s*(.+)/)`. -/
def matchLocal : Str → Option (Str × Str) :=
  regexScan tryLocalHere

/-- Models `/window_Id\(([^)]+)\)/` anchored at the start: returns the text between
the parentheses. -/
def tryWindowIdHere (l : Str) : Option Str :=
  match dropLit (str "window_Id(") l with
  | none => none
  | some r =>
    let grp := r.takeWhile (fun c => c != ')')
    match r.dropWhile (fun c => c != ')') with
    | ')' :: _ => if grp.isEmpty then none else some grp
    | _ => none

/-- Models `expr.match(/window_Id\(([^)]+)\)/)`. -/
def matchWindowId : Str → Option Str :=
  regexScan tryWindowIdHere

/-- Models `/(\w+)\.(\w+):(\w+)\(([^)]*)\)/` anchored at the start: returns
(variable, property, method, argument text). -/
def tryColonCallHere (l : Str) : Option (Str × Str × Str × Str) :=
  let v := l.takeWhile isWordChar
  if v.isEmpty then none
  else
    match l.dropWhile isWordChar with
    | '.' :: r2 =>
      let p := r2.takeWhile isWordChar
      if p.isEmpty then none
      else
        match r2.dropWhile isWordChar with
        | ':' :: r4 =>
          let m := r4.takeWhile isWordChar
          if m.isEmpty then none
          else
            match r4.dropWhile isWordChar with
            | '(' :: r6 =>
              let args := r6.takeWhile (fun c => c != ')')
              match r6.dropWhile (fun c => c != ')') with
              | ')' :: _ => some (v, p, m, args)
              | _ => none
            | _ => none
        | _ => none
    | _ => none

/-- Models `expr.match(/(\w+)\.(\w+):(\w+)\(([^)]*)\)/)`. -/
def matchColonCall : Str → Option (Str × Str × Str × Str) :=
  regexScan tryColonCallHere

/-- Models `/(\w+)\.(\w+):find\(([^)]+)\)/` anchored at the start (the restricted
shape recognised inside block contents). -/
def tryFindCallHere (l : Str) : Option (Str × Str × Str) :=
  let v := l.takeWhile isWordChar
  if v.isEmpty then none
  else
    match l.dropWhile isWordChar with
    | '.' :: r2 =>
      let p := r2.takeWhile isWordChar
      if p.isEmpty then none
      else
        match r2.dropWhile isWordChar with
        | ':' :: r4 =>
          match dropLit (str "find(") r4 with
          | none => none
          | some r6 =>
            let arg := r6.takeWhile (fun c => c != ')')
            match r6.dropWhile (fun c => c != ')') with
            | ')' :: _ => if arg.isEmpty then none else some (v, p, arg)
            | _ => none
        | _ => none
    | _ => none

/-- Models `content.match(/(\w+)\.(\w+):find\(([^)]+)\)/)`. -/
def matchFindCall : Str → Option (Str × Str × Str) :=
  regexScan tryFindCallHere

/-- Models `/info:\(([^)]*)\)/` anchored at the start. -/
def tryInfoParenHere (l : Str) : Option Str :=
  match dropLit (str "info:(") l with
  | none => none
  | some r =>
    let grp := r.takeWhile (fun c => c != ')')
    match r.dropWhile (fun c => c != ')') with
    | ')' :: _ => some grp
    | _ => none

/-- Models `expr.match(/info:\(([^)]*)\)/)`. -/
def matchInfoParen : Str → Option Str :=
  regexScan tryInfoParenHere

/-- Models `/export\s+function\s+(\w+)\s*\(([^)]*)\)/` anchored at the start:
returns the function name and the parameter text. -/
def tryExportHeaderHere (l : Str) : Option (Str × Str) :=
  match dropLit (str "export") l with
  | none => none
  | some r1 =>
    if (r1.takeWhile isWs).isEmpty then none
    else
      match dropLit (str "function") (r1.dropWhile isWs) with
      | none => none
      | some r2 =>
        if (r2.takeWhile isWs).isEmpty then none
        else
          let r3 := r2.dropWhile isWs
          let name := r3.takeWhile isWordChar
          if name.isEmpty then none
          else
            match (r3.dropWhile isWordChar).dropWhile isWs with
            | '(' :: r5 =>
              let params := r5.takeWhile (fun c => c != ')')
              match r5.dropWhile (fun c => c != ')') with
              | ')' :: _ => some (name, params)
              | _ => none
            | _ => none

/-- Models `firstLine.match(/export\s+function\s+(\w+)\s*\(([^)]*)\)/)`. -/
def matchExportHeader : Str → Option (Str × Str) :=
  regexScan tryExportHeaderHere

/-- Models `/(\w+)\s*\(/` anchored at the start: returns the name before the
parenthesis. -/
def tryCallHeadHere (l : Str) : Option Str :=
  let name := l.takeWhile isWordChar
  if name.isEmpty then none
  else
    match (l.dropWhile isWordChar).dropWhile isWs with
    | '(' :: _ => some name
    | _ => none

/-- Models `line.match(/(\w+)\s*\(/)`. -/
def matchCallHead : Str → Option Str :=
  regexScan tryCallHeadHere

/-- Models `/(\w+)\s*\((.*)\)/` anchored at the start: the greedy `(.*)` makes the
argument group run to the last `)` of the remainder. -/
def tryCallFullHere (l : Str) : Option (Str × Str) :=
  let name := l.takeWhile isWordChar
  if name.isEmpty then none
  else
    match (l.dropWhile isWordChar).dropWhile isWs with
    | '(' :: r =>
      match r.reverse.dropWhile (fun c => c != ')') with
      | ')' :: restRev => some (name, restRev.reverse)
      | _ => none
    | _ => none

/-- Models `line.match(/(\w+)\s*\((.*)\)/)`. -/
def matchCallFull : Str → Option (Str × Str) :=
  regexScan tryCallFullHere

/-- Models `/^(\w+)\s*\(([^)]*)\)/` (anchored by `^` in the source, so there is no
scan): returns the callee name and the argument text. -/
def matchCallArgsAnchored (l : Str) : Option (Str × Str) :=
  let name := l.takeWhile isWordChar
  if name.isEmpty then none
  else
    match (l.dropWhile isWordChar).dropWhile isWs with
    | '(' :: r =>
      let args := r.takeWhile (fun c => c != ')')
      match r.dropWhile (fun c => c != ')') with
      | ')' :: _ => some (name, args)
      | _ => none
    | _ => none

/-- Models `/^\w+\s*\(/.test(l)`: the pretest for bare calls inside function
bodies. -/
def isCallishAnchored (l : Str) : Bool :=
  (tryCallHeadHere l).isSome

/-- Models `/sys\.log\s*\(([^)]+)\)/` anchored at the start. -/
def trySysLogHere (l : Str) : Option Str :=
  match dropLit (str "sys.log") l with
  | none => none
  | some r1 =>
    match r1.dropWhile isWs with
    | '(' :: r =>
      let grp := r.takeWhile (fun c => c != ')')
      match r.dropWhile (fun c => c != ')') with
      | ')' :: _ => if grp.isEmpty then none else some grp
      | _ => none
    | _ => none

/-- Models `line.match(/sys\.log\s*\(([^)]+)\)/)`. -/
def matchSysLog : Str → Option Str :=
  regexScan trySysLogHere

/-! ## Value rendering (`String(v)`, template literals and `JSON.stringify`) -/

mutual

/-- JavaScript string coercion `String(v)` (also used for template literals
and property keys).  The source text of a function (never rendered by the
scripts under study) is abbreviated. -/
def jsToString : Value → Str
  | vStr s => s
  | vNum n => str (toString n)
  | vBool b => str (toString b)
  | vNull => str "null"
  | vUndefined => str "undefined"
  | vWindow _ _ => str "[object Object]"
  | vWindowDb _ => str "[object Object]"
  | vWindowLib _ => str "[object Object]"
  | vObj _ => str "[object Object]"
  | vInfoFn _ => str "function"
  | vFindFn _ => str "function"
  | vWriteFn _ => str "function"
  | vReadFn _ => str "function"
  | vArr es => jsToStringElems es

/-- Models `Array.prototype.toString`: elements joined by commas, `null` and
`undefined` elements rendered empty. -/
def jsToStringElems : List Value → Str
  | [] => []
  | [v] =>
    (match v with
     | vNull => []
     | vUndefined => []
     | w => jsToString w)
  | v :: rest =>
    (match v with
     | vNull => []
     | vUndefined => []
     | w => jsToString w) ++ [','] ++ jsToStringElems rest

end

/-- One character of a JSON string literal. -/
def jsonEscapeChar (c : Char) : Str :=
  if c == '"' then ['\\', '"']
  else if c == '\\' then ['\\', '\\']
  else if c == '\n' then ['\\', 'n']
  else if c == '\t' then ['\\', 't']
  else if c == '\r' then ['\\', 'r']
  else [c]

/-- A JSON string literal. -/
def jsonQuote (s : Str) : Str :=
  '"' :: s.foldr (fun c acc => jsonEscapeChar c ++ acc) ['"']

/-- Indentation produced by `JSON.stringify(v, null, 2)` at nesting level
`lvl`. -/
def jsonIndent (lvl : Nat) : Str :=
  List.replicate (2 * lvl) ' '

/-- Assemble a JSON object literal from already rendered members. -/
def jsonObjLit (compact : Bool) (lvl : Nat) (fields : List (Str × Str)) : Str :=
  if fields.isEmpty then [lbrace, rbrace]
  else if compact then
    [lbrace] ++ joinSep [','] (fields.map (fun p => jsonQuote p.1 ++ [':'] ++ p.2)) ++ [rbrace]
  else
    [lbrace, '\n'] ++
      joinSep [',', '\n'] (fields.map (fun p => jsonIndent (lvl + 1) ++ jsonQuote p.1 ++ str ": " ++ p.2)) ++
      '\n' :: jsonIndent lvl ++ [rbrace]

/-- Assemble a JSON array literal from already rendered elements. -/
def jsonArrLit (compact : Bool) (lvl : Nat) (elems : List Str) : Str :=
  if elems.isEmpty then ['[', ']']
  else if compact then
    '[' :: joinSep [','] elems ++ [']']
  else
    '[' :: '\n' ::
      joinSep [',', '\n'] (elems.map (fun e => jsonIndent (lvl + 1) ++ e)) ++
      '\n' :: jsonIndent lvl ++ [']']

mutual

/-- Models `JSON.stringify(v, null, 2)` (`compact = false`) and `JSON.stringify(v)`
(`compact = true`); `none` models the `undefined` result for functions and
`undefined`.  A window capability object serialises its `id` string; its
`info` closure is omitted and its sub-objects, populated only by function
properties, serialise as empty objects. -/
def jsonRender (compact : Bool) (lvl : Nat) : Value → Option Str
  | vStr s => some (jsonQuote s)
  | vNum n => some (str (toString n))
  | vBool b => some (str (toString b))
  | vNull => some (str "null")
  | vUndefined => none
  | vInfoFn _ => none
  | vFindFn _ => none
  | vWriteFn _ => none
  | vReadFn _ => none
  | vWindow _ id =>
    some (jsonObjLit compact lvl
      [(str "id", jsonQuote id), (str "libary", [lbrace, rbrace]),
       (str "library", [lbrace, rbrace]), (str "database", [lbrace, rbrace])])
  | vWindowDb _ => some [lbrace, rbrace]
  | vWindowLib _ => some [lbrace, rbrace]
  | vObj fields => some (jsonObjLit compact lvl (jsonRenderFields compact lvl fields))
  | vArr elems => some (jsonArrLit compact lvl (jsonRenderElems compact lvl elems))

/-- Members of an object literal; function and `undefined` members are
omitted. -/
def jsonRenderFields (compact : Bool) (lvl : Nat) : List (Str × Value) → List (Str × Str)
  | [] => []
  | (k, v) :: rest =>
    match jsonRender compact (lvl + 1) v with
    | none => jsonRenderFields compact lvl rest
    | some r => (k, r) :: jsonRenderFields compact lvl rest

/-- Elements of an array literal; function and `undefined` elements render
as `null`. -/
def jsonRenderElems (compact : Bool) (lvl : Nat) : List Value → List Str
  | [] => []
  | v :: rest =>
    ((jsonRender compact (lvl + 1) v).getD (str "null")) :: jsonRenderElems compact lvl rest

end

/-- Models `JSON.stringify(v, null, 2)` as used by `executeSysLog` (never applied
to functions or `undefined` there, so the `undefined` result defaults to the
empty string). -/
def jsonStringifyPretty (v : Value) : Str :=
  (jsonRender false 0 v).getD []

/-- Models `JSON.stringify(v)` as used by `executeExportedFunction`. -/
def jsonStringifyCompact (v : Value) : Str :=
  (jsonRender true 0 v).getD []

/-! ## The window object model -/

/-- Models `initializeDefaultLibrary(window)`. -/
def initializeDefaultLibrary (w : WindowState) : List (Str × Value) :=
  [(str "mainSection", vObj
      [(str "name", vStr (str "mainSection")),
       (str "type", vStr (str "section")),
       (str "content", vStr (str "Main section for window " ++ w.id))]),
   (str "crossSection", vObj
      [(str "name", vStr (str "crossSection")),
       (str "type", vStr (str "section")),
       (str "data", vObj
         [(str "x", vNum 0), (str "y", vNum 0),
          (str "width", vNum w.width), (str "height", vNum w.height)])]),
   (str "components", vArr [])]

/-- Models `resolveWindowId(pattern)`: returns the index of the resolved record in
the registry (the source returns the record object itself; the index models
that reference), or `none` for the JavaScript `null`. -/
def resolveWindowId (windows : List WindowState) (pattern : Str) : Option Nat :=
  if jsStartsWith pattern (str "window-") &&
      (jsReplaceFirst (str "window-") [] pattern == str "11" ||
       jsReplaceFirst (str "window-") [] pattern == str "1") then
    -- `return this.windows[0] || null`
    match windows with
    | [] => none
    | _ :: _ => some 0
  else
    match windows.findIdx? (fun w => w.id == pattern) with
    | some i => some i
    | none =>
      match windows.findIdx? (fun w =>
          jsIncludes (jsToLower w.title) (str "vsstudio") || w.appType == str "vsstudio") with
      | some i => some i
      | none =>
        match windows with
        | [] => none
        | _ :: _ => some 0

/-- Models `createWindowObject(window)`: the capability object, carrying the index
of the bound record and the `id` captured at creation. -/
def createWindowObject (idx : Nat) (w : WindowState) : Value :=
  vWindow idx w.id

/-- The `info(data)` closure: a snapshot record; `library` is only lazily
*read* here (`window.library || initializeDefaultLibrary(window)` does not
write the record), and the caller-supplied `data` wins over the stored one
when truthy. -/
def getWindowInfo (w : WindowState) (data : Value) : Value :=
  let lib := match w.library with
    | some l => l
    | none => initializeDefaultLibrary w
  vObj
    [(str "id", vStr w.id), (str "title", vStr w.title),
     (str "appType", vStr w.appType),
     (str "library", vObj lib), (str "libary", vObj lib),
     (str "data", jsOr data (match w.data with
       | some d => vObj d
       | none => vUndefined))]

/-- The `library.find(key)` / `libary.find(key)` closure: lazily installs the
default library on the record, then `window.library[key] || null`. -/
def findInLibrary (w : WindowState) (key : Str) : WindowState × Value :=
  let lib := match w.library with
    | some l => l
    | none => initializeDefaultLibrary w
  let w' := { w with library := some lib }
  let v := match assocGet lib key with
    | some v => v
    | none => vUndefined
  (w', jsOr v vNull)

/-- The `database.write(key, value)` closure: lazily initialises the data
store, stores the value, returns the confirmation record. -/
def dbWrite (w : WindowState) (key : Str) (v : Value) : WindowState × Value :=
  let d := match w.data with
    | some d => d
    | none => []
  ({ w with data := some (assocSet d key v) },
   vObj [(str "success", vBool true), (str "key", vStr key), (str "value", v)])

/-- The `database.read(key)` closure: `window.data?.[key] || null`. -/
def dbRead (w : WindowState) (key : Str) : Value :=
  match w.data with
  | none => vNull
  | some d =>
    match assocGet d key with
    | none => vNull
    | some v => jsOr v vNull

/-! ## The evaluator -/

/-- Models `this.context.variables.get(name)` (`vUndefined` for a missing key). -/
def varGet (ctx : FluxoContext) (name : Str) : Value :=
  match assocGet ctx.vars name with
  | some v => v
  | none => vUndefined

/-- Invoke one of the capability closures (`methodTarget[method](...args)`).
Missing arguments are `undefined`; property keys are string-coerced as in
JavaScript.  Only values satisfying `isFunctionValue` reach this function.
The stored index always points into the registry, so the out-of-range
fallbacks are unreachable. -/
def callFunction (ctx : FluxoContext) (f : Value) (args : List Value) : FluxoContext × Value :=
  match f with
  | vInfoFn idx =>
    (ctx, match ctx.windows.get? idx with
      | some w => getWindowInfo w (args.getD 0 vUndefined)
      | none => vUndefined)
  | vFindFn idx =>
    (match ctx.windows.get? idx with
     | some w =>
       let r := findInLibrary w (jsToString (args.getD 0 vUndefined))
       ({ ctx with windows := ctx.windows.set idx r.1 }, r.2)
     | none => (ctx, vUndefined))
  | vWriteFn idx =>
    (match ctx.windows.get? idx with
     | some w =>
       let r := dbWrite w (jsToString (args.getD 0 vUndefined)) (args.getD 1 vUndefined)
       ({ ctx with windows := ctx.windows.set idx r.1 }, r.2)
     | none => (ctx, vUndefined))
  | vReadFn idx =>
    (ctx, match ctx.windows.get? idx with
      | some w => dbRead w (jsToString (args.getD 0 vUndefined))
      | none => vUndefined)
  | _ => (ctx, vUndefined)

/-- One argument of a colon-method call (`argsStr.split(',').map(...)`):
a quoted token is globally quote-stripped, anything else is a variable
lookup falling back to the raw token text. -/
def colonCallArg (ctx : FluxoContext) (arg : Str) : Value :=
  let trimmed := jsTrim arg
  if startsWithQuote trimmed then vStr (stripQuotes trimmed)
  else jsOr (varGet ctx trimmed) (vStr trimmed)

/-- Models `evaluateColonMethodCall(expr)`. -/
def evaluateColonMethodCall (ctx : FluxoContext) (expr : Str) : FluxoContext × Value :=
  match matchColonCall expr with
  | none => (ctx, vStr expr)
  | some (varName, property, method, argsStr) =>
    let obj := varGet ctx varName
    if !truthy obj || !truthy (getProp obj property) then (ctx, vNull)
    else
      let methodTarget := getProp obj property
      if !isFunctionValue (getProp methodTarget method) then (ctx, vNull)
      else
        let args := (splitChar ',' argsStr).map (colonCallArg ctx)
        callFunction ctx (getProp methodTarget method) args

/-- Models `evaluateInfoCall(expr)` (unreachable from `evaluateExpression`, see
`evaluateExpression_info_branch_dead`; embedded for completeness). -/
def evaluateInfoCall (ctx : FluxoContext) (expr : Str) : Except String (FluxoContext × Value) :=
  let varName := (splitChar '.' expr).headD []
  let windowObj := varGet ctx varName
  if !truthy windowObj || !isFunctionValue (getProp windowObj (str "info")) then
    .error (String.mk varName ++ " is not a valid window object")
  else
    let arg := match matchInfoParen expr with
      | some g => jsTrim g
      | none => str "null"
    let argValue := if arg == str "null" then vNull else varGet ctx arg
    .ok (callFunction ctx (getProp windowObj (str "info")) [argValue])

/-- Models `evaluateExpression(expr)`: the reachable `throw` sites make this
fallible. -/
def evaluateExpression (ctx : FluxoContext) (expr : Str) : Except String (FluxoContext × Value) :=
  match (if jsStartsWith expr (str "window_Id(") then matchWindowId expr else none) with
  | some grp =>
    let windowIdPattern := jsTrim (stripQuotes grp)
    match resolveWindowId ctx.windows windowIdPattern with
    | none => .error ("Window " ++ String.mk windowIdPattern ++ " not found")
    | some idx =>
      match ctx.windows.get? idx with
      | some w => .ok (ctx, createWindowObject idx w)
      | none => .ok (ctx, vUndefined)
  | none =>
    if jsIncludes expr [':'] && jsIncludes expr ['('] then
      .ok (evaluateColonMethodCall ctx expr)
    else if jsIncludes expr (str ".info:(") then
      evaluateInfoCall ctx expr
    else if startsWithQuote expr then
      .ok (ctx, vStr (stripQuotes expr))
    else if expr == str "null" then
      .ok (ctx, vNull)
    else if assocHas ctx.vars expr then
      .ok (ctx, (assocGet ctx.vars expr).getD vUndefined)
    else
      .ok (ctx, vStr expr)

/-- The dotted-path walk of `resolveVariablePath`. -/
def resolveVariablePathGo : Value → List Str → Value
  | current, [] => current
  | current, p :: ps =>
    if truthy current && typeofObject current then resolveVariablePathGo (getProp current p) ps
    else vNull

/-- Models `resolveVariablePath(path)`. -/
def resolveVariablePath (ctx : FluxoContext) (path : Str) : Value :=
  match splitChar '.' path with
  | [] => vUndefined
  | p0 :: rest => resolveVariablePathGo (varGet ctx p0) rest

/-- The rendering of one `sys.log` argument: a quoted token is globally
quote-stripped; otherwise the token is resolved (direct binding first, then
dotted-path traversal); a resolved `null`/`undefined` falls back to the
quote-stripped raw token; objects render via `JSON.stringify(·, null, 2)`
and primitives via `String(·)`. -/
def sysLogArg (ctx : FluxoContext) (arg : Str) : Str :=
  let trimmed := jsTrim arg
  if startsWithQuote trimmed then stripQuotes trimmed
  else
    match jsOr (varGet ctx trimmed) (resolveVariablePath ctx trimmed) with
    | vUndefined => stripQuotes trimmed
    | vNull => stripQuotes trimmed
    | v => if typeofObject v then jsonStringifyPretty v else jsToString v

/-- Models `executeSysLog(line)`: renders each argument and appends one joined
transcript line. -/
def executeSysLog (ctx : FluxoContext) (line : Str) : FluxoContext :=
  match matchSysLog line with
  | none => ctx
  | some inner =>
    let args := (splitChar ',' inner).map (sysLogArg ctx)
    { ctx with output := ctx.output ++ [joinSep [' '] args] }

/-! ## Block scanning and the statement dispatcher -/

/-- The per-line brace bookkeeping of the block scanners: one step of
`for (const char of line) { ... }`. -/
def countBraces (line : Str) (bc : Int) (fs : Bool) : Int × Bool :=
  line.foldl (fun acc c =>
    if c == lbrace then (acc.1 + 1, true)
    else if c == rbrace then (acc.1 - 1, acc.2)
    else acc) (bc, fs)

/-- The shared scanning loop of `evaluateBlockExpression` and
`parseExportFunction`: accumulates lines once an opening brace has been
seen, stopping on the line where the depth returns to zero; `i` tracks the
source's loop variable and is returned so callers can compute the consumed
line count. -/
def scanBlockAux (bc : Int) (fs : Bool) (acc : Str) (i : Nat) : List Str → Str × Nat
  | [] => (acc, i)
  | line :: rest =>
    let r := countBraces line bc fs
    let acc' := if r.2 then acc ++ line ++ ['\n'] else acc
    if r.2 && r.1 == 0 then (acc', i)
    else scanBlockAux r.1 r.2 acc' (i + 1) rest

/-- Scan for a balanced block starting at `startIndex`. -/
def scanBlock (allTokens : List Str) (startIndex : Nat) : Str × Nat :=
  scanBlockAux 0 false [] startIndex (allTokens.drop startIndex)

/-- Models `s.indexOf(c)`. -/
def indexOfChar (s : Str) (c : Char) : Option Nat :=
  s.findIdx? (fun x => x == c)

/-- Models `s.lastIndexOf(c)`. -/
def lastIndexOfChar (s : Str) (c : Char) : Option Nat :=
  match indexOfChar s.reverse c with
  | some j => some (s.length - 1 - j)
  | none => none

/-- Models `s.substring(a, b)`, including the argument swap JavaScript performs
when `a > b`. -/
def jsSubstring (s : Str) (a b : Nat) : Str :=
  ((s.drop (min a b)).take (max a b - min a b))

/-- Models `extractBlockContent(blockText)`: the trimmed text strictly between the
first `{` and the last `}`, or empty when either brace is missing. -/
def extractBlockContent (blockText : Str) : Str :=
  match indexOfChar blockText lbrace, lastIndexOfChar blockText rbrace with
  | some firstBrace, some lastBrace => jsTrim (jsSubstring blockText (firstBrace + 1) lastBrace)
  | _, _ => []

/-- Models `evaluateBlockContent(prefix, content)`: only the
`name.prop:find(arg)` shape does anything; everything else evaluates to
`null`.  The `pfx` argument is unused, as in the source. -/
def evaluateBlockContent (ctx : FluxoContext) (pfx : Str) (content : Str) : FluxoContext × Value :=
  let trimmedContent := jsTrim content
  let _ := pfx
  if jsIncludes trimmedContent (str ":find(") then
    match matchFindCall trimmedContent with
    | some (varName, _prop, arg) =>
      let windowObj := varGet ctx varName
      let findArg := jsTrim (stripQuotes arg)
      if truthy windowObj &&
          (truthy (getProp windowObj (str "libary")) || truthy (getProp windowObj (str "library"))) then
        let libObj := jsOr (getProp windowObj (str "libary")) (getProp windowObj (str "library"))
        if isFunctionValue (getProp libObj (str "find")) then
          callFunction ctx (getProp libObj (str "find")) [vStr findArg]
        else (ctx, vNull)
      else (ctx, vNull)
    | none => (ctx, vNull)
  else (ctx, vNull)

/-- Models `evaluateBlockExpression(expression, allTokens, startIndex)`: scans the
block, extracts its inner text, evaluates it, and reports the consumed line
count. -/
def evaluateBlockExpression (ctx : FluxoContext) (expression : Str) (allTokens : List Str)
    (startIndex : Nat) : FluxoContext × Value × Nat :=
  -- `expression.substring(0, expression.indexOf('{')).trim()`; callers
  -- guarantee the expression contains `{`
  let pfx := jsTrim (expression.takeWhile (fun c => c != lbrace))
  let r := scanBlock allTokens startIndex
  let innerContent := extractBlockContent r.1
  let e := evaluateBlockContent ctx pfx innerContent
  (e.1, e.2, r.2 - startIndex + 1)

/-- Models `executeLocalDeclaration(line, allTokens, currentIndex)`: returns the
updated context and the consumed line count, or the thrown error. -/
def executeLocalDeclaration (ctx : FluxoContext) (line : Str) (allTokens : List Str)
    (currentIndex : Nat) : Except String (FluxoContext × Nat) :=
  match matchLocal line with
  | none => .error ("Invalid local declaration: " ++ String.mk line)
  | some (varName, expression) =>
    if jsIncludes expression [lbrace] then
      let r := evaluateBlockExpression ctx expression allTokens currentIndex
      .ok ({ r.1 with vars := assocSet r.1.vars varName r.2.1 }, r.2.2)
    else
      match evaluateExpression ctx (jsTrim expression) with
      | .error e => .error e
      | .ok (ctx', value) => .ok ({ ctx' with vars := assocSet ctx'.vars varName value }, 1)

/-- Models `parseExportFunction(allTokens, startIndex)`: parses the header, scans
the body block, stores the function, returns the consumed line count. -/
def parseExportFunction (ctx : FluxoContext) (allTokens : List Str) (startIndex : Nat) :
    Except String (FluxoContext × Nat) :=
  let firstLine := jsTrim ((allTokens.get? startIndex).getD [])
  match matchExportHeader firstLine with
  | none => .error ("Invalid export function: " ++ String.mk firstLine)
  | some (funcName, paramsStr) =>
    let params := ((splitChar ',' paramsStr).map jsTrim).filter (fun p => !p.isEmpty)
    let r := scanBlock allTokens startIndex
    .ok ({ ctx with exports := exportsSet ctx.exports funcName ⟨params, r.1⟩ }, r.2 - startIndex + 1)

/-- Models `isExportedFunctionCall(line)`. -/
def isExportedFunctionCall (ctx : FluxoContext) (line : Str) : Bool :=
  match matchCallHead line with
  | none => false
  | some name => exportsHas ctx.exports name

/-- The body loop of `executeExportedFunction`: each non-blank body line is
dispatched against the shared context.  `executeLocalDeclaration` is invoked
with the whole body-line list and index `0`, and its consumed-line result is
discarded, exactly as in the source.  The declared parameters of the stored
function are never consulted. -/
def runFunctionBody (bodyLines : List Str) : FluxoContext → List Str → Except String FluxoContext
  | ctx, [] => .ok ctx
  | ctx, bodyLine :: rest =>
    let trimmed := jsTrim bodyLine
    if trimmed.isEmpty || trimmed == [lbrace] || trimmed == [rbrace] then
      runFunctionBody bodyLines ctx rest
    else if jsStartsWith trimmed (str "local ") then
      match executeLocalDeclaration ctx trimmed bodyLines 0 with
      | .error e => .error e
      | .ok (ctx', _) => runFunctionBody bodyLines ctx' rest
    else if jsIncludes trimmed (str "sys.log(") then
      runFunctionBody bodyLines (executeSysLog ctx trimmed) rest
    else if jsStartsWith trimmed (str "return ") then
      match evaluateExpression ctx (jsTrim (trimmed.drop 7)) with
      | .error e => .error e
      | .ok (ctx', returnValue) =>
        let rendered := if typeofObject returnValue then jsonStringifyCompact returnValue
          else jsToString returnValue
        runFunctionBody bodyLines
          { ctx' with output := ctx'.output ++ [str "Return: " ++ rendered] } rest
    else if isCallishAnchored trimmed then
      match matchCallArgsAnchored trimmed with
      | some (callFuncName, argsStr) =>
        let args := (splitChar ',' argsStr).map (fun a =>
          let argTrimmed := jsTrim a
          jsOr (varGet ctx argTrimmed) (vStr argTrimmed))
        runFunctionBody bodyLines
          { ctx with output := ctx.output ++
            [str "Called " ++ callFuncName ++ str " with: " ++ jsonStringifyCompact (vArr args)] }
          rest
      | none => runFunctionBody bodyLines ctx rest
    else
      runFunctionBody bodyLines ctx rest

/-- Models `executeExportedFunction(line)`: looks the callee up (silently a no-op
when absent), strips the stored body's outer braces, and runs the body
lines. -/
def executeExportedFunction (ctx : FluxoContext) (line : Str) : Except String FluxoContext :=
  match matchCallFull line with
  | none => .ok ctx
  | some (funcName, _argsText) =>
    match exportsGet ctx.exports funcName with
    | none => .ok ctx
    | some func =>
      let bodyContent := extractBlockContent func.body
      let bodyLines := (splitChar '\n' bodyContent).filter (fun l => !(jsTrim l).isEmpty)
      runFunctionBody bodyLines ctx bodyLines

/-- The statement dispatch loop of `executeTokens`, with an explicit fuel
parameter to make the recursion structural.  Every loop iteration advances
`i` by at least one (`executeTokens_fuel_sufficient` below), so the
`fuel = 0` branch is unreachable for the fuel budget `tokens.length` used by
`executeTokens`. -/
def executeTokensFuel (fuel : Nat) (tokens : List Str) (i : Nat) (ctx : FluxoContext) :
    Except String FluxoContext :=
  if tokens.length ≤ i then .ok ctx
  else
    match fuel with
    | 0 => .ok ctx
    | fuel + 1 =>
      let line := jsTrim ((tokens.get? i).getD [])
      if jsStartsWith line (str "local ") then
        match executeLocalDeclaration ctx line tokens i with
        | .error e => .error e
        | .ok (ctx', consumed) => executeTokensFuel fuel tokens (i + consumed) ctx'
      else if jsStartsWith line (str "export function ") then
        match parseExportFunction ctx tokens i with
        | .error e => .error e
        | .ok (ctx', consumed) => executeTokensFuel fuel tokens (i + consumed) ctx'
      else if jsIncludes line (str "sys.log(") then
        executeTokensFuel fuel tokens (i + 1) (executeSysLog ctx line)
      else if isExportedFunctionCall ctx line then
        match executeExportedFunction ctx line with
        | .error e => .error e
        | .ok ctx' => executeTokensFuel fuel tokens (i + 1) ctx'
      else
        executeTokensFuel fuel tokens (i + 1) ctx

/-- Models `executeTokens(tokens)`. -/
def executeTokens (tokens : List Str) (ctx : FluxoContext) : Except String FluxoContext :=
  executeTokensFuel tokens.length tokens 0 ctx

/-- Models `tokenize(code)`: the Line Normalizer; keeps non-blank, non-comment
lines with their original (untrimmed) text. -/
def tokenize (code : Str) : List Str :=
  (splitChar '\n' code).filter (fun line =>
    let trimmed := jsTrim line
    !trimmed.isEmpty && !jsStartsWith trimmed (str "//"))

/-- Models `parseAndExecute(code)` on a fresh context for the given registry. -/
def parseAndExecute (windows : List WindowState) (code : Str) : Except String FluxoContext :=
  executeTokens (tokenize code) { windows := windows, vars := [], exports := [], output := [] }

/-- Models `execute(code)`: the sole public entry point, with the single catch
boundary turning any thrown error into the `"Fluxo Error: "` string. -/
def execute (windows : List WindowState) (code : String) : String :=
  match parseAndExecute windows code.toList with
  | .ok ctx =>
    let out := joinSep ['\n'] ctx.output
    if out.isEmpty then "Script executed successfully (no output)" else String.mk out
  | .error e => "Fluxo Error: " ++ e

/-! ## Adequacy of the fuel-based dispatch loop

Every iteration of the source's `while` loop advances `i` by at least one
line, so running `executeTokensFuel` with fuel `tokens.length` computes the
loop exactly; the lemmas below make this precise. -/

theorem executeLocalDeclaration_consumed_pos {ctx : FluxoContext} {line : Str}
    {allTokens : List Str} {i : Nat} {ctx' : FluxoContext} {c : Nat}
    (h : executeLocalDeclaration ctx line allTokens i = .ok (ctx', c)) : 1 ≤ c := by
  unfold executeLocalDeclaration at h
  split at h
  · cases h
  · split at h
    · simp only [evaluateBlockExpression, Except.ok.injEq, Prod.mk.injEq] at h
      omega
    · split at h
      · cases h
      · simp only [Except.ok.injEq, Prod.mk.injEq] at h
        omega

theorem parseExportFunction_consumed_pos {ctx : FluxoContext} {allTokens : List Str}
    {i : Nat} {ctx' : FluxoContext} {c : Nat}
    (h : parseExportFunction ctx allTokens i = .ok (ctx', c)) : 1 ≤ c := by
  simp only [parseExportFunction] at h
  split at h
  · cases h
  · simp only [Except.ok.injEq, Prod.mk.injEq] at h
    omega

theorem executeTokensFuel_succ (tokens : List Str) :
    ∀ fuel i ctx, tokens.length - i ≤ fuel →
      executeTokensFuel (fuel + 1) tokens i ctx = executeTokensFuel fuel tokens i ctx := by
  intro fuel
  induction fuel with
  | zero =>
    intro i ctx h
    have hi : tokens.length ≤ i := by omega
    simp [executeTokensFuel, hi]
  | succ fuel ih =>
    intro i ctx h
    by_cases hi : tokens.length ≤ i
    · simp [executeTokensFuel, hi]
    · conv_lhs => rw [executeTokensFuel]
      conv_rhs => rw [executeTokensFuel]
      rw [if_neg hi, if_neg hi]
      have hlt : i < tokens.length := by omega
      dsimp only
      repeat' split
      all_goals first
        | rfl
        | (rename_i heq
           exact ih _ _ (by have := executeLocalDeclaration_consumed_pos heq; omega))
        | (rename_i heq
           exact ih _ _ (by have := parseExportFunction_consumed_pos heq; omega))
        | exact ih _ _ (by omega)

/-- Any fuel of at least `tokens.length - i` computes the dispatch loop
exactly; in particular the budget `tokens.length` used by `executeTokens`
always suffices, so the `fuel = 0` escape branch never fires. -/
theorem executeTokens_fuel_sufficient (tokens : List Str) :
    ∀ fuel fuel' i ctx, tokens.length - i ≤ fuel → tokens.length - i ≤ fuel' →
      executeTokensFuel fuel tokens i ctx = executeTokensFuel fuel' tokens i ctx := by
  have key : ∀ d fuel i ctx, tokens.length - i ≤ fuel →
      executeTokensFuel (fuel + d) tokens i ctx = executeTokensFuel fuel tokens i ctx := by
    intro d
    induction d with
    | zero => intro fuel i ctx _; rfl
    | succ d ih =>
      intro fuel i ctx h
      have h1 : tokens.length - i ≤ fuel + d := by omega
      calc executeTokensFuel (fuel + (d + 1)) tokens i ctx
          = executeTokensFuel ((fuel + d) + 1) tokens i ctx := by ring_nf
        _ = executeTokensFuel (fuel + d) tokens i ctx := executeTokensFuel_succ tokens _ _ _ h1
        _ = executeTokensFuel fuel tokens i ctx := ih fuel i ctx h
  intro fuel fuel' i ctx h h'
  rcases Nat.le_total fuel fuel' with hle | hle
  · obtain ⟨d, rfl⟩ := Nat.le.dest hle
    exact (key d fuel i ctx h).symm
  · obtain ⟨d, rfl⟩ := Nat.le.dest hle
    exact key d fuel' i ctx h'

/-! ## Concrete fixtures for the scenario theorems -/

/-- A concrete registry record: the first (and only) record has identifier
`"abc"` and title `"Foo"`. -/
def demoWindow : WindowState :=
  { id := str "abc", appType := str "vsmock", title := str "Foo",
    width := 800, height := 600 }

/-- A non-empty registry whose first record is `demoWindow`. -/
def demoRegistry : List WindowState :=
  [demoWindow]

/-- A fresh execution context over `demoRegistry`. -/
def demoCtx : FluxoContext :=
  { windows := demoRegistry, vars := [], exports := [], output := [] }

/-! ## C1: the `execute` error boundary -/

/-- Claim C1. For every registry and script, `execute` totally computes a
string (the embedding is a total function, so no exception can propagate);
either the underlying run succeeds and `execute` returns the joined
transcript (or the no-output sentinel), or the run raises an error `e` and
`execute` returns exactly `"Fluxo Error: " ++ e`, discarding everything the
transcript accumulated before the error. -/
theorem claim_C1_error_boundary (windows : List WindowState) (code : String) :
    (∃ ctx, parseAndExecute windows code.toList = .ok ctx ∧
      execute windows code =
        (if (joinSep ['\n'] ctx.output).isEmpty then "Script executed successfully (no output)"
         else String.mk (joinSep ['\n'] ctx.output))) ∨
    (∃ e, parseAndExecute windows code.toList = .error e ∧
      execute windows code = "Fluxo Error: " ++ e) := by
  have hsplit : execute windows code =
      match parseAndExecute windows code.toList with
      | .ok ctx =>
        if (joinSep ['\n'] ctx.output).isEmpty then "Script executed successfully (no output)"
        else String.mk (joinSep ['\n'] ctx.output)
      | .error e => "Fluxo Error: " ++ e := rfl
  cases h : parseAndExecute windows code.toList with
  | ok ctx =>
    refine .inl ⟨ctx, rfl, ?_⟩
    rw [hsplit, h]
  | error e =>
    refine .inr ⟨e, rfl, ?_⟩
    rw [hsplit, h]

/-! ## C2: unmatched opening braces -/

/-- Claim C2, counterexample. The single-line script `local x = {` contains an
unmatched `{`, yet `execute` does not return an error string: the result is
the no-output success sentinel, which does not begin with
`"Fluxo Error:"`. -/
theorem claim_C2_counterexample :
    execute demoRegistry "local x = \x7b" = "Script executed successfully (no output)" ∧
    jsStartsWith (str (execute demoRegistry "local x = \x7b")) (str "Fluxo Error:") = false := by
  constructor
  · rfl
  · decide

/-- Claim C2, amended. An unmatched `{` is consumed silently rather than
rejected: the block scan runs to end of input without the depth returning to
zero, `extractBlockContent` finds no closing brace and yields the empty
content, the declaration binds `null`, and `execute` reports a normal
(non-error) result — for `local x = {` the no-output sentinel. -/
theorem claim_C2_amended :
    parseAndExecute demoRegistry (str "local x = \x7b") =
      .ok { windows := demoRegistry, vars := [(str "x", Value.vNull)],
            exports := [], output := [] } ∧
    (scanBlock (tokenize (str "local x = \x7b")) 0).1 = str "local x = \x7b" ++ ['\n'] ∧
    extractBlockContent (scanBlock (tokenize (str "local x = \x7b")) 0).1 = [] ∧
    execute demoRegistry "local x = \x7b" = "Script executed successfully (no output)" := by
  refine ⟨rfl, by decide, by decide, rfl⟩

/-! ## C3: the `info:` expression form -/

/-- The Scenario C script. -/
def scenarioCScript : String :=
  "local w = window_Id(\"window-11\")\nlocal i = w.info:(null)\nsys.log(i)"

/-- Claim C3 (claim refuted by the code). On the registry whose first record
has identifier `"abc"` and title `"Foo"`, the Scenario C script logs the
literal text `w.info:(null)`: the transcript is exactly that one line, which
contains neither the id `"abc"` nor the title `"Foo"`.  The third conjunct
pinpoints the divergence: `w.info:(null)` contains both `:` and `(`, so
`evaluateExpression` routes it to the colon-method branch, whose regex does
not match and which therefore returns the expression text itself — the
`.info:(` branch (and the "not a valid window object" error in
`evaluateInfoCall`) is unreachable. -/
theorem claim_C3_code_bug :
    execute demoRegistry scenarioCScript = "w.info:(null)" ∧
    (parseAndExecute demoRegistry (str scenarioCScript)).map FluxoContext.output =
      .ok [str "w.info:(null)"] ∧
    evaluateExpression
      { demoCtx with vars := [(str "w", createWindowObject 0 demoWindow)] }
      (str "w.info:(null)") =
      .ok ({ demoCtx with vars := [(str "w", createWindowObject 0 demoWindow)] },
        Value.vStr (str "w.info:(null)")) ∧
    jsIncludes (str "w.info:(null)") (str "abc") = false ∧
    jsIncludes (str "w.info:(null)") (str "Foo") = false := by
  refine ⟨rfl, rfl, rfl, by decide, by decide⟩

/-! ## C4: `database.write` / `database.read` round trips -/

theorem assocGet_assocSet (m : List (Str × Value)) (k : Str) (v : Value) :
    assocGet (assocSet m k v) k = some v := by
  induction m with
  | nil =>
    unfold assocGet assocSet
    rw [List.find?_cons_of_pos _ (by simp)]
    rfl
  | cons p rest ih =>
    obtain ⟨k', v'⟩ := p
    simp only [assocSet]
    cases hkk : (k' == k)
    · rw [if_neg (by simp [hkk])]
      unfold assocGet
      rw [List.find?_cons_of_neg _ (by simp [hkk])]
      exact ih
    · rw [if_pos (by simp [hkk])]
      unfold assocGet
      rw [List.find?_cons_of_pos _ (by simp)]
      rfl

/-- Claim C4, counterexample. Writing the empty string (a falsy JavaScript
value) and reading it back yields `null`, not the written value:
`database.read` is `window.data?.[key] || null`, so every falsy stored value
reads back as `null`. -/
theorem claim_C4_counterexample :
    dbRead (dbWrite demoWindow (str "k") (Value.vStr [])).1 (str "k") = Value.vNull ∧
    Value.vNull ≠ Value.vStr [] := by
  refine ⟨rfl, fun h => Value.noConfusion h⟩

/-- Claim C4, amended. On any window record, `database.write(k, v)` followed by
`database.read(k)` returns `v` for every *truthy* value `v` (falsy values
read back as `null`, see the counterexample). -/
theorem claim_C4_amended (w : WindowState) (k : Str) (v : Value)
    (hv : truthy v = true) :
    dbRead (dbWrite w k v).1 k = v := by
  simp [dbWrite, dbRead, assocGet_assocSet, jsOr, hv]

/-- Witness for `claim_C4_amended` at a concrete input. -/
theorem claim_C4_amended_witness :
    truthy (Value.vStr (str "v")) = true ∧
    dbRead (dbWrite demoWindow (str "k") (Value.vStr (str "v"))).1 (str "k") =
      Value.vStr (str "v") :=
  ⟨rfl, claim_C4_amended demoWindow (str "k") (Value.vStr (str "v")) rfl⟩

/-! ## C5: Scenario E -/

/-- The Scenario E script. -/
def scenarioEScript : String :=
  "local w = window_Id(\"window-11\")\nw.database:write(\"k\",\"v\")\nlocal r = w.database:read(\"k\")\nsys.log(r)"

/-- Claim C5, counterexample. On the non-empty registry `demoRegistry`, the
Scenario E script outputs `"r"`, not `"v"`. -/
theorem claim_C5_counterexample :
    execute demoRegistry scenarioEScript = "r" ∧
    execute demoRegistry scenarioEScript ≠ "v" := by
  refine ⟨rfl, ?_⟩
  intro h
  rw [show execute demoRegistry scenarioEScript = "r" from rfl] at h
  exact absurd h (by decide)

/-- Claim C5, amended. On any registry whose first record has no stored data,
the Scenario E script outputs `"r"`: the bare statement line
`w.database:write("k","v")` is not a recognised statement form (its matched
call head `write` is not an exported function), so the dispatcher skips it
and the write never happens; `w.database:read("k")` then returns `null`, and
`sys.log(r)` renders the null-valued variable as the raw token `r`.  The
registry is left unmutated. -/
theorem claim_C5_amended (w : WindowState) (rest : List WindowState)
    (hd : w.data = none) :
    (parseAndExecute (w :: rest) (str scenarioEScript)).map
        (fun c => (c.output, c.windows)) =
      .ok ([str "r"], w :: rest) ∧
    isExportedFunctionCall
      { windows := w :: rest, vars := [(str "w", createWindowObject 0 w)],
        exports := [], output := [] }
      (str "w.database:write(\"k\",\"v\")") = false := by
  constructor
  · obtain ⟨id, appType, title, width, height, data, library⟩ := w
    subst hd
    rfl
  · rfl

/-- Witness for `claim_C5_amended` on the concrete registry
`[demoWindow]`. -/
theorem claim_C5_amended_witness :
    demoWindow.data = none ∧
    ((parseAndExecute [demoWindow] (str scenarioEScript)).map
        (fun c => (c.output, c.windows)) = .ok ([str "r"], [demoWindow]) ∧
      isExportedFunctionCall
        { windows := [demoWindow], vars := [(str "w", createWindowObject 0 demoWindow)],
          exports := [], output := [] }
        (str "w.database:write(\"k\",\"v\")") = false) :=
  ⟨rfl, (claim_C5_amended demoWindow [] rfl).1, (claim_C5_amended demoWindow [] rfl).2⟩

/-! ## C6: resolution of `window_Id("window-11")` -/

/-- Claim C6. `window_Id("window-11")` resolves to the first record of every
non-empty registry, whatever that record's identifier is; on the empty
registry resolution yields no record and evaluating the expression raises
the "window not found" error (the only way to reach it). -/
theorem claim_C6_window11_resolution :
    (∀ (w : WindowState) (rest : List WindowState),
      resolveWindowId (w :: rest) (str "window-11") = some 0) ∧
    (∀ p : Str, resolveWindowId [] p = none) ∧
    (∀ (w : WindowState) (rest : List WindowState) (vars : List (Str × Value))
        (exps : List (Str × FluxoFunction)) (out : List Str),
      evaluateExpression { windows := w :: rest, vars := vars, exports := exps, output := out }
          (str "window_Id(\"window-11\")") =
        .ok ({ windows := w :: rest, vars := vars, exports := exps, output := out },
          createWindowObject 0 w)) ∧
    (∀ (vars : List (Str × Value)) (exps : List (Str × FluxoFunction)) (out : List Str),
      evaluateExpression { windows := [], vars := vars, exports := exps, output := out }
          (str "window_Id(\"window-11\")") =
        .error "Window window-11 not found") := by
  refine ⟨fun w rest => rfl, ?_, fun w rest vars exps out => rfl, fun vars exps out => rfl⟩
  intro p
  unfold resolveWindowId
  split
  · rfl
  · simp [List.findIdx?]

/-! ## C8: function invocation shares the flat environment -/

/-- A script declaring `export function f(p)` whose body binds `y`, then a
bare invocation `f("arg")`, then top-level `sys.log(y)` and `sys.log(p)`. -/
def scenarioFnScript : String :=
  "export function f(p) \x7b\nlocal y = \"inside\"\n\x7d\nf(\"arg\")\nsys.log(y)\nsys.log(p)"

/-- Claim C8. Invoking an exported function runs its body against the one
shared environment and transcript, and never binds the declared parameters.
First conjunct: the result of `executeExportedFunction` depends on the
invocation line only through the matched callee name — the call-site
argument text is never consulted, so no parameter can be assigned from it.
Second conjunct, on the scenario script: after `f("arg")` runs, the binding
`y` made *inside* the body is visible to the subsequent top-level
`sys.log(y)` (which emits `inside` into the same transcript), while the
declared parameter `p` is bound to nothing, so `sys.log(p)` emits the raw
token `p`. -/
theorem claim_C8_shared_environment :
    (∀ (ctx : FluxoContext) (l1 l2 : Str),
      (matchCallFull l1).map Prod.fst = (matchCallFull l2).map Prod.fst →
      executeExportedFunction ctx l1 = executeExportedFunction ctx l2) ∧
    (parseAndExecute demoRegistry (str scenarioFnScript)).map
        (fun c => (c.output, assocGet c.vars (str "y"), assocHas c.vars (str "p"))) =
      .ok ([str "inside", str "p"], some (Value.vStr (str "inside")), false) := by
  constructor
  · intro ctx l1 l2 h
    have hh : ∀ l : Str, executeExportedFunction ctx l =
        (match (matchCallFull l).map Prod.fst with
         | none => .ok ctx
         | some funcName =>
           match exportsGet ctx.exports funcName with
           | none => .ok ctx
           | some func =>
             runFunctionBody
               ((splitChar '\n' (extractBlockContent func.body)).filter
                 (fun x => !(jsTrim x).isEmpty))
               ctx
               ((splitChar '\n' (extractBlockContent func.body)).filter
                 (fun x => !(jsTrim x).isEmpty))) := by
      intro l
      unfold executeExportedFunction
      cases matchCallFull l with
      | none => rfl
      | some p => rfl
    rw [hh l1, hh l2, h]
  · rfl

/-- Witness for the first conjunct of `claim_C8_shared_environment`: two
invocation lines of the same exported name with different argument text
produce identical results. -/
theorem claim_C8_shared_environment_witness :
    (matchCallFull (str "f(\"arg\")")).map Prod.fst =
      (matchCallFull (str "f(1, 2, 3)")).map Prod.fst ∧
    executeExportedFunction demoCtx (str "f(\"arg\")") =
      executeExportedFunction demoCtx (str "f(1, 2, 3)") :=
  ⟨by decide, claim_C8_shared_environment.1 demoCtx _ _ (by decide)⟩

/-! ## Substring membership lemmas for `jsIncludes` -/

theorem jsIncludes_mem {l s : Str} (h : jsIncludes l s = true) {c : Char} (hc : c ∈ s) :
    c ∈ l := by
  induction l with
  | nil =>
    simp only [jsIncludes, List.isEmpty_iff] at h
    subst h
    cases hc
  | cons a t ih =>
    simp only [jsIncludes, Bool.or_eq_true] at h
    rcases h with h | h
    · exact (List.isPrefixOf_iff_prefix.mp h).subset hc
    · exact List.mem_cons_of_mem a (ih h)

theorem mem_jsIncludes_single {l : Str} {c : Char} (h : c ∈ l) : jsIncludes l [c] = true := by
  induction l with
  | nil => cases h
  | cons a t ih =>
    simp only [jsIncludes, Bool.or_eq_true]
    rcases List.mem_cons.mp h with rfl | h'
    · exact .inl (by simp [List.isPrefixOf])
    · exact .inr (ih h')

theorem jsIncludes_single_iff {l : Str} {c : Char} : jsIncludes l [c] = true ↔ c ∈ l :=
  ⟨fun h => jsIncludes_mem h (List.mem_singleton.mpr rfl), mem_jsIncludes_single⟩

theorem jsIncludes_single_eq_false {l : Str} {c : Char} (h : c ∉ l) :
    jsIncludes l [c] = false := by
  cases hx : jsIncludes l [c]
  · rfl
  · exact absurd (jsIncludes_single_iff.mp hx) h

/-- A quoted expression whose text does not pair `:` with `(` reaches the
quoted-literal branch of `evaluateExpression` and evaluates to the globally
quote-stripped text. -/
theorem evaluateExpression_quoted (ctx : FluxoContext) (e : Str)
    (hq : startsWithQuote e = true) (hcp : ¬(':' ∈ e ∧ '(' ∈ e)) :
    evaluateExpression ctx e = .ok (ctx, Value.vStr (stripQuotes e)) := by
  have h1 : jsStartsWith e (str "window_Id(") = false := by
    cases e with
    | nil => cases hq
    | cons c t =>
      simp only [startsWithQuote, Bool.or_eq_true, beq_iff_eq] at hq
      have hw : ('w' == c) = false := by
        rcases hq with rfl | rfl <;> decide
      simp [jsStartsWith, str, List.isPrefixOf, hw]
  have h2 : (jsIncludes e [':'] && jsIncludes e ['(']) = false := by
    cases hcc : jsIncludes e [':'] <;> cases hpp : jsIncludes e ['('] <;> try rfl
    exact absurd ⟨jsIncludes_single_iff.mp hcc, jsIncludes_single_iff.mp hpp⟩ hcp
  have h3 : jsIncludes e (str ".info:(") = false := by
    cases hx : jsIncludes e (str ".info:(")
    · rfl
    · exact absurd ⟨jsIncludes_mem hx (by decide), jsIncludes_mem hx (by decide)⟩ hcp
  rw [evaluateExpression, h1]
  simp only [Bool.false_eq_true, if_false, h2, h3, hq, if_true]

/-! ## C9: global quote stripping -/

/-- Claim C9, counterexample. The expression `"a:(b)"` begins with a double
quote, yet evaluating it does *not* return the quote-stripped text: because
it contains both `:` and `(`, `evaluateExpression` routes it to the
colon-method branch, whose regex fails and which returns the expression text
unchanged, quotes included. -/
theorem claim_C9_counterexample :
    startsWithQuote (str "\"a:(b)\"") = true ∧
    evaluateExpression demoCtx (str "\"a:(b)\"") =
      .ok (demoCtx, Value.vStr (str "\"a:(b)\"")) ∧
    Value.vStr (str "\"a:(b)\"") ≠ Value.vStr (stripQuotes (str "\"a:(b)\"")) := by
  refine ⟨rfl, rfl, ?_⟩
  intro h
  cases h

/-- Claim C9, amended. Quoted-literal evaluation strips *every* quote
character, not just the delimiters, provided the expression does not contain
both `:` and `(` (those are captured by the earlier colon-method branch, see
the counterexample); the same global stripping applies unconditionally to
quoted colon-method-call arguments and quoted `sys.log` arguments; in
particular the literal `"a'b"` evaluates to `ab`. -/
theorem claim_C9_amended :
    (∀ (ctx : FluxoContext) (e : Str), startsWithQuote e = true →
      ¬(':' ∈ e ∧ '(' ∈ e) →
      evaluateExpression ctx e = .ok (ctx, Value.vStr (stripQuotes e))) ∧
    (∀ (ctx : FluxoContext) (a : Str), startsWithQuote (jsTrim a) = true →
      colonCallArg ctx a = Value.vStr (stripQuotes (jsTrim a))) ∧
    (∀ (ctx : FluxoContext) (a : Str), startsWithQuote (jsTrim a) = true →
      sysLogArg ctx a = stripQuotes (jsTrim a)) ∧
    evaluateExpression demoCtx ('"' :: 'a' :: squote :: 'b' :: ['"']) =
      .ok (demoCtx, Value.vStr (str "ab")) := by
  refine ⟨evaluateExpression_quoted, ?_, ?_, rfl⟩
  · intro ctx a hq
    simp only [colonCallArg, hq, if_true]
  · intro ctx a hq
    simp only [sysLogArg, hq, if_true]

/-- Witness for `claim_C9_amended` at concrete inputs. -/
theorem claim_C9_amended_witness :
    (startsWithQuote (str "\"hi\"") = true ∧ ¬(':' ∈ str "\"hi\"" ∧ '(' ∈ str "\"hi\"") ∧
      evaluateExpression demoCtx (str "\"hi\"") =
        .ok (demoCtx, Value.vStr (stripQuotes (str "\"hi\"")))) ∧
    (startsWithQuote (jsTrim (str " \"q\" ")) = true ∧
      colonCallArg demoCtx (str " \"q\" ") = Value.vStr (stripQuotes (jsTrim (str " \"q\" ")))) ∧
    (sysLogArg demoCtx (str " \"q\" ") = stripQuotes (jsTrim (str " \"q\" "))) :=
  ⟨⟨by decide, by decide, claim_C9_amended.1 demoCtx _ (by decide) (by decide)⟩,
   ⟨by decide, claim_C9_amended.2.1 demoCtx _ (by decide)⟩,
   claim_C9_amended.2.2.1 demoCtx _ (by decide)⟩

/-! ## C10: null/undefined `sys.log` arguments render as the raw token -/

/-- Claim C10. Whenever an unquoted `sys.log` argument token resolves (direct
binding first, dotted path second) to `null` or `undefined`, the emitted
rendering is the raw token text with quote characters removed — in
particular, after `local x = null`, `sys.log(x)` emits `x`, not `null`. -/
theorem claim_C10_null_log_rendering :
    (∀ (ctx : FluxoContext) (a : Str), startsWithQuote (jsTrim a) = false →
      (jsOr (varGet ctx (jsTrim a)) (resolveVariablePath ctx (jsTrim a)) = Value.vNull ∨
       jsOr (varGet ctx (jsTrim a)) (resolveVariablePath ctx (jsTrim a)) = Value.vUndefined) →
      sysLogArg ctx a = stripQuotes (jsTrim a)) ∧
    (parseAndExecute demoRegistry (str "local x = null\nsys.log(x)")).map
        FluxoContext.output = .ok [str "x"] ∧
    execute demoRegistry "local x = null\nsys.log(x)" = "x" := by
  refine ⟨?_, rfl, rfl⟩
  intro ctx a hq hv
  rcases hv with hv | hv <;>
    simp only [sysLogArg, hq, Bool.false_eq_true, if_false, hv]

/-- Witness for `claim_C10_null_log_rendering` at a concrete input: a
variable explicitly bound to `null`. -/
theorem claim_C10_null_log_rendering_witness :
    (startsWithQuote (jsTrim (str "x")) = false ∧
      jsOr (varGet { demoCtx with vars := [(str "x", Value.vNull)] } (jsTrim (str "x")))
        (resolveVariablePath { demoCtx with vars := [(str "x", Value.vNull)] }
          (jsTrim (str "x"))) = Value.vNull) ∧
    sysLogArg { demoCtx with vars := [(str "x", Value.vNull)] } (str "x") =
      stripQuotes (jsTrim (str "x")) :=
  ⟨⟨by decide, rfl⟩,
   claim_C10_null_log_rendering.1 { demoCtx with vars := [(str "x", Value.vNull)] }
     (str "x") (by decide) (.inl rfl)⟩

/-! ## C7 toolkit: splitting, trimming and stripping around a symbolic
literal -/

theorem splitChar_ne_nil (sep : Char) (l : Str) : splitChar sep l ≠ [] := by
  cases l with
  | nil => simp [splitChar]
  | cons c t =>
    unfold splitChar
    split
    · simp
    · split <;> simp

theorem splitChar_of_not_mem {sep : Char} {a : Str} (h : sep ∉ a) :
    splitChar sep a = [a] := by
  induction a with
  | nil => rfl
  | cons c t ih =>
    have hc : (c == sep) = false := by
      simp only [List.mem_cons, not_or] at h
      exact beq_eq_false_iff_ne.mpr (fun hcs => h.1 hcs.symm)
    have ht : sep ∉ t := fun hx => h (List.mem_cons_of_mem _ hx)
    simp [splitChar, ih ht, hc]

theorem splitChar_append {sep : Char} {a : Str} (b : Str) (h : sep ∉ a) :
    splitChar sep (a ++ sep :: b) = a :: splitChar sep b := by
  induction a with
  | nil =>
    obtain ⟨h0, t0, heq⟩ := List.exists_cons_of_ne_nil (splitChar_ne_nil sep b)
    simp [splitChar, heq]
  | cons c t ih =>
    have hc : (c == sep) = false := by
      simp only [List.mem_cons, not_or] at h
      exact beq_eq_false_iff_ne.mpr (fun hcs => h.1 hcs.symm)
    have ht : sep ∉ t := fun hx => h (List.mem_cons_of_mem _ hx)
    simp [splitChar, ih ht, hc]

theorem jsTrim_of_ends {c d : Char} (mid : Str) (hc : isWs c = false) (hd : isWs d = false) :
    jsTrim (c :: (mid ++ [d])) = c :: (mid ++ [d]) := by
  simp [jsTrim, List.dropWhile_cons, hc, hd, List.reverse_append]

theorem stripQuotes_quote_wrap {lit : Str} (hq : ∀ c ∈ lit, isQuoteChar c = false) :
    stripQuotes ('"' :: (lit ++ ['"'])) = lit := by
  have h1 : lit.filter (fun c => !isQuoteChar c) = lit :=
    List.filter_eq_self.mpr (fun c hc => by simp [hq c hc])
  simp +decide [stripQuotes, List.filter_append, List.filter_cons, h1]

/-! ## C7: `local x = "lit"` then `sys.log(x)` -/

/-- One unfolding step of the dispatch loop, for positive fuel and an index
still inside the token list. -/
theorem executeTokensFuel_step (fuel : Nat) (tokens : List Str) (i : Nat) (ctx : FluxoContext)
    (hf : fuel ≠ 0) (h : i < tokens.length) :
    executeTokensFuel fuel tokens i ctx =
      (let line := jsTrim ((tokens.get? i).getD [])
       if jsStartsWith line (str "local ") then
         match executeLocalDeclaration ctx line tokens i with
         | .error e => .error e
         | .ok (ctx', consumed) => executeTokensFuel (fuel - 1) tokens (i + consumed) ctx'
       else if jsStartsWith line (str "export function ") then
         match parseExportFunction ctx tokens i with
         | .error e => .error e
         | .ok (ctx', consumed) => executeTokensFuel (fuel - 1) tokens (i + consumed) ctx'
       else if jsIncludes line (str "sys.log(") then
         executeTokensFuel (fuel - 1) tokens (i + 1) (executeSysLog ctx line)
       else if isExportedFunctionCall ctx line then
         match executeExportedFunction ctx line with
         | .error e => .error e
         | .ok ctx' => executeTokensFuel (fuel - 1) tokens (i + 1) ctx'
       else executeTokensFuel (fuel - 1) tokens (i + 1) ctx) := by
  obtain ⟨f, rfl⟩ := Nat.exists_eq_succ_of_ne_zero hf
  conv_lhs => rw [executeTokensFuel.eq_def]
  rw [if_neg (Nat.not_le.mpr h)]
  rfl

/-- The dispatch loop stops as soon as the index leaves the token list. -/
theorem executeTokensFuel_done (fuel : Nat) (tokens : List Str) (i : Nat) (ctx : FluxoContext)
    (h : tokens.length ≤ i) :
    executeTokensFuel fuel tokens i ctx = .ok ctx := by
  rw [executeTokensFuel.eq_def, if_pos h]

/-- The first line of the C7 script: `local x = "` ++ lit ++ `"`. -/
def localLogLine1 (lit : Str) : Str :=
  str "local x = " ++ ('"' :: (lit ++ ['"']))

/-- The C7 script: `local x = "lit"` on one line, `sys.log(x)` on the
next. -/
def localLogScript (lit : Str) : Str :=
  localLogLine1 lit ++ ('\n' :: str "sys.log(x)")

theorem localLogLine1_shape (lit : Str) :
    localLogLine1 lit = 'l' :: ((str "ocal x = " ++ ('"' :: lit)) ++ ['"']) := by
  have e1 : str "local x = " = 'l' :: str "ocal x = " := by decide
  simp [localLogLine1, e1, List.append_assoc]

theorem jsTrim_localLogLine1 (lit : Str) :
    jsTrim (localLogLine1 lit) = localLogLine1 lit := by
  rw [localLogLine1_shape]
  exact jsTrim_of_ends _ (by decide) (by decide)

theorem newline_not_mem_localLogLine1 {lit : Str} (hn : '\n' ∉ lit) :
    '\n' ∉ localLogLine1 lit := by
  intro hmem
  rcases List.mem_append.mp hmem with h | h
  · exact absurd h (by decide)
  · rcases List.mem_cons.mp h with h | h
    · exact absurd h (by decide)
    · rcases List.mem_append.mp h with h | h
      · exact hn h
      · exact absurd h (by decide)

theorem tokenize_localLogScript {lit : Str} (hn : '\n' ∉ lit) :
    tokenize (localLogScript lit) = [localLogLine1 lit, str "sys.log(x)"] := by
  have hpred1 : (!(jsTrim (localLogLine1 lit)).isEmpty &&
      !jsStartsWith (jsTrim (localLogLine1 lit)) (str "//")) = true := by
    rw [jsTrim_localLogLine1, localLogLine1_shape]
    rfl
  have hpred2 : (!(jsTrim (str "sys.log(x)")).isEmpty &&
      !jsStartsWith (jsTrim (str "sys.log(x)")) (str "//")) = true := by decide
  unfold tokenize localLogScript
  rw [splitChar_append _ (newline_not_mem_localLogLine1 hn),
    splitChar_of_not_mem (by decide : '\n' ∉ str "sys.log(x)")]
  simp only [List.filter, hpred1, hpred2]

theorem matchLocal_localLogLine1 (lit : Str) :
    matchLocal (localLogLine1 lit) = some (['x'], '"' :: (lit ++ ['"'])) := rfl

theorem executeLocal_localLog {lit : Str} (windows : List WindowState)
    (allTokens : List Str) (i : Nat)
    (hq : ∀ c ∈ lit, isQuoteChar c = false)
    (hb : lbrace ∉ lit)
    (hcp : ¬(':' ∈ lit ∧ '(' ∈ lit)) :
    executeLocalDeclaration ⟨windows, [], [], []⟩ (localLogLine1 lit) allTokens i =
      .ok (⟨windows, [(['x'], Value.vStr lit)], [], []⟩, 1) := by
  have hbr : jsIncludes ('"' :: (lit ++ ['"'])) [lbrace] = false := by
    refine jsIncludes_single_eq_false ?_
    intro hmem
    rcases List.mem_cons.mp hmem with h | h
    · exact absurd h (by decide)
    · rcases List.mem_append.mp h with h | h
      · exact hb h
      · exact absurd h (by decide)
  have hcp' : ¬(':' ∈ ('"' :: (lit ++ ['"'])) ∧ '(' ∈ ('"' :: (lit ++ ['"']))) := by
    rintro ⟨h1, h2⟩
    refine hcp ⟨?_, ?_⟩
    · rcases List.mem_cons.mp h1 with h | h
      · exact absurd h (by decide)
      · rcases List.mem_append.mp h with h | h
        · exact h
        · exact absurd h (by decide)
    · rcases List.mem_cons.mp h2 with h | h
      · exact absurd h (by decide)
      · rcases List.mem_append.mp h with h | h
        · exact h
        · exact absurd h (by decide)
  unfold executeLocalDeclaration
  rw [matchLocal_localLogLine1]
  dsimp only
  rw [hbr]
  simp only [Bool.false_eq_true, if_false]
  rw [jsTrim_of_ends lit (by decide) (by decide),
    evaluateExpression_quoted _ ('"' :: (lit ++ ['"'])) rfl hcp',
    stripQuotes_quote_wrap hq]
  rfl

theorem executeSysLog_x (windows : List WindowState) (lit : Str) :
    executeSysLog ⟨windows, [(['x'], Value.vStr lit)], [], []⟩ (str "sys.log(x)") =
      ⟨windows, [(['x'], Value.vStr lit)], [], [lit]⟩ := by
  cases lit <;> rfl

/-- Claim C7, counterexample. For `lit := a:b(c)` the script
`local x = "a:b(c)"` then `sys.log(x)` emits the text *with the quotes
still present*: the quoted expression contains both `:` and `(`, so it is
captured (and returned verbatim) by the colon-method branch.  The emitted
line differs from `lit`. -/
theorem claim_C7_counterexample :
    (parseAndExecute demoRegistry (localLogScript (str "a:b(c)"))).map
        FluxoContext.output = .ok [str "\"a:b(c)\""] ∧
    [str "\"a:b(c)\""] ≠ [str "a:b(c)"] := by
  refine ⟨rfl, by decide⟩

/-- Claim C7, amended. For every string `lit` that contains no quote
character, no opening brace, no newline, and not both `:` and `(`, the
script `local x = "lit"` followed by `sys.log(x)` emits exactly `lit` as
the transcript line of the log statement, on every registry.  (The excluded
characters are forced by the counterexample and its siblings: quote
characters are globally stripped, a `{` routes the declaration to the block
scanner, and a `:`/`(` pair routes the expression to the colon-method
branch.) -/
theorem claim_C7_amended (windows : List WindowState) (lit : Str)
    (hq : ∀ c ∈ lit, isQuoteChar c = false)
    (hb : lbrace ∉ lit)
    (hn : '\n' ∉ lit)
    (hcp : ¬(':' ∈ lit ∧ '(' ∈ lit)) :
    (parseAndExecute windows (localLogScript lit)).map FluxoContext.output = .ok [lit] := by
  unfold parseAndExecute
  rw [tokenize_localLogScript hn]
  unfold executeTokens
  rw [executeTokensFuel_step _ _ _ _ (by simp) (by simp)]
  dsimp only [List.get?_cons_zero, Option.getD_some]
  rw [jsTrim_localLogLine1]
  have hs1 : jsStartsWith (localLogLine1 lit) (str "local ") = true := rfl
  rw [if_pos hs1]
  rw [executeLocal_localLog windows _ _ hq hb hcp]
  dsimp only
  rw [executeTokensFuel_step _ _ _ _ (by simp) (by simp)]
  dsimp only [List.get?_cons_succ, List.get?_cons_zero, Option.getD_some]
  have hjt2 : jsTrim (str "sys.log(x)") = str "sys.log(x)" := by decide
  rw [hjt2]
  rw [if_neg (by decide), if_neg (by decide), if_pos (by decide)]
  rw [executeSysLog_x]
  rw [executeTokensFuel_done _ _ _ _ (by simp)]
  rfl

/-- Witness for `claim_C7_amended` at `lit := hello` on `demoRegistry`. -/
theorem claim_C7_amended_witness :
    ((∀ c ∈ str "hello", isQuoteChar c = false) ∧ lbrace ∉ str "hello" ∧
      '\n' ∉ str "hello" ∧ ¬(':' ∈ str "hello" ∧ '(' ∈ str "hello")) ∧
    (parseAndExecute demoRegistry (localLogScript (str "hello"))).map
        FluxoContext.output = .ok [str "hello"] :=
  ⟨⟨by decide, by decide, by decide, by decide⟩,
   claim_C7_amended demoRegistry (str "hello") (by decide) (by decide) (by decide) (by decide)⟩

end Fluxo
